import Mathlib

/-!
A verification development for the `memkv` in-memory key-value store.

The definitions below are a shallow embedding of the Python sources:

* `src/memkv/server/locks.py`    — the writer-priority reader/writer lock,
  modelled as a labelled transition system over its monitor state
  (`rwlock`, `writes_waiting`) extended with ghost counts of the threads
  currently holding the lock for reading or writing;
* `src/memkv/server/server.py`   — `ServerMetrics` and the command
  executors `execute_get` / `execute_set` / `execute_delete` /
  `execute_metrics` and `unwrap_message_and_execute`, with Python dicts
  modelled as insertion-ordered association lists;
* `src/memkv/protocol/util.py`   — the 6-byte header codec, the
  `backoff` full-jitter computation and message-type dispatch;
* `src/memkv/client/api.py`      — the client socket lifecycle during
  one attempt of `execute_command` (connect / send / receive / close),
  with network faults injected explicitly.

Fallible Python code (a raised exception) is modelled with `Option`:
`none` is a raise.  Byte strings are modelled as `List Nat` — only
membership and length are relevant to the properties proved here.
The protobuf schema codec (`memkv_pb2`) is external to the repository;
wherever its output matters it is a parameter (the serialized payload of
a message, or a `Codec` record of payload parsers).
-/

/-! ## Bytes, stores and metrics (Python dict as ordered assoc list) -/

/-- A byte string: `bytes` in Python.  Entries are byte values. -/
abbrev Bytes := List Nat

/-- The key-value store: `Dict[str, bytes]`, insertion ordered. -/
abbrev Store := List (String × Bytes)

/-- The metrics map of `ServerMetrics`: `Dict[str, int]`. -/
abbrev Metrics := List (String × Int)

/-- Embedding of `d[k]` lookup for an association list: first binding wins,
matching Python dict semantics (keys are unique in a real dict). -/
def assocLookup {α : Type} (l : List (String × α)) (k : String) : Option α :=
  match l with
  | [] => none
  | (k0, v0) :: rest => if k0 = k then some v0 else assocLookup rest k

/-- Embedding of `d[k] = v` on a dict: overwrite the existing binding in place, or
append a fresh binding at the end (Python dicts keep insertion order). -/
def assocSet {α : Type} (l : List (String × α)) (k : String) (v : α) :
    List (String × α) :=
  match l with
  | [] => [(k, v)]
  | (k0, v0) :: rest =>
      if k0 = k then (k0, v) :: rest else (k0, v0) :: assocSet rest k v

/-- Embedding of `d.pop(k, None)`: the removed value (if any) and the remaining dict. -/
def assocPop {α : Type} (l : List (String × α)) (k : String) :
    Option α × List (String × α) :=
  match l with
  | [] => (none, [])
  | (k0, v0) :: rest =>
      if k0 = k then (some v0, rest)
      else
        let r := assocPop rest k
        (r.1, (k0, v0) :: r.2)

/-- Building a dict from a list of pairs (`{kv.key: kv.value for kv in ...}`):
later occurrences of a key overwrite earlier ones; the insertion order is
the order of first occurrence. -/
def dictOfList {α : Type} (l : List (String × α)) : List (String × α) :=
  l.foldl (fun acc kv => assocSet acc kv.1 kv.2) []

/-- Embedding of `dict.update(other)` for dicts represented as assoc lists. -/
def dictUpdate {α : Type} (l other : List (String × α)) : List (String × α) :=
  other.foldl (fun acc kv => assocSet acc kv.1 kv.2) l

/-! ## `ServerMetrics` (server.py lines 27-48) -/

def KEY_COUNT_METRIC : String := "key_count"
def TOTAL_STORE_CONTENTS_SIZE_METRIC : String := "total_store_contents_size"
def KEYS_READ_COUNT_METRIC : String := "keys_read_count"
def KEYS_UPDATED_COUNT_METRIC : String := "keys_updated_count"
def KEYS_DELETED_COUNT_METRIC : String := "keys_deleted_count"

/-- Embedding of `ServerMetrics.increment`: add to an existing counter, or initialise an
absent counter to `increment_by`. -/
def metricsIncrement (m : Metrics) (name : String) (increment_by : Int) : Metrics :=
  match assocLookup m name with
  | some old => assocSet m name (old + increment_by)
  | none => assocSet m name increment_by

/-- Embedding of `ServerMetrics.decrement`: subtract from an existing counter; an absent
counter is initialised to `+decrement_by` (this sign is what the source
does on the absent branch). -/
def metricsDecrement (m : Metrics) (name : String) (decrement_by : Int) : Metrics :=
  match assocLookup m name with
  | some old => assocSet m name (old - decrement_by)
  | none => assocSet m name decrement_by

/-- Embedding of `ServerMetrics.get`, reading a counter that may be absent. -/
def metricsGet (m : Metrics) (name : String) : Option Int :=
  assocLookup m name

/-- A counter read with absent interpreted as zero (the value `increment`
starts from on the absent branch). -/
def metricValD (m : Metrics) (name : String) : Int :=
  (metricsGet m name).getD 0

/-! ## The reader/writer lock (locks.py lines 22-65)

The monitor state consists of the integers `rwlock` and `writes_waiting`
manipulated under `self.lock`.  The ghost fields `reading` and `writing`
count the threads that have returned from `read_acquire` (resp.
`write_acquire`) and not yet called `release`; they let the safety
property talk about who holds the lock.  Each transition below is one
atomic critical section of the Python code; condition-variable wakeups
are over-approximated by allowing a waiting thread to retry at any time,
which is sound for the safety properties proved here. -/

structure LockState where
  rwlock : Int
  writes_waiting : Nat
  reading : Nat
  writing : Nat
deriving DecidableEq, Repr

/-- The freshly constructed lock: `rwlock = 0`, `writes_waiting = 0`,
no holders. -/
def lockInit : LockState := ⟨0, 0, 0, 0⟩

/-- One atomic monitor step of some thread. -/
inductive LockLabel where
  /-- A `read_acquire` call finds `rwlock >= 0` and `writes_waiting == 0`, exits
  the `while` loop and increments `rwlock` (lines 38-42). -/
  | readAdmit
  /-- A `write_acquire` call finds `rwlock == 0` on entry and sets `rwlock = -1`
  (lines 44-50). -/
  | writeAdmit
  /-- A `write_acquire` call finds `rwlock != 0`, increments `writes_waiting` and
  blocks on `writers_ok` (lines 46-48). -/
  | writeBlock
  /-- A blocked writer wakes, decrements `writes_waiting`, re-checks the
  loop guard, finds `rwlock == 0` and sets `rwlock = -1` (lines 46-50).
  A wakeup whose re-check fails re-increments `writes_waiting` inside the
  same critical section and is a net no-op. -/
  | writerWake
  /-- A `release` call by a thread holding a read lock (lines 52-59). -/
  | readRelease
  /-- A `release` call by the thread holding the write lock (lines 52-59). -/
  | writeRelease
deriving DecidableEq, Repr

/-- The guarded effect of one monitor step; `none` when the step is not
enabled in state `s`. -/
def lockStep (l : LockLabel) (s : LockState) : Option LockState :=
  match l with
  | .readAdmit =>
      if 0 ≤ s.rwlock ∧ s.writes_waiting = 0 then
        some { s with rwlock := s.rwlock + 1, reading := s.reading + 1 }
      else none
  | .writeAdmit =>
      if s.rwlock = 0 then
        some { s with rwlock := -1, writing := s.writing + 1 }
      else none
  | .writeBlock =>
      if s.rwlock ≠ 0 then
        some { s with writes_waiting := s.writes_waiting + 1 }
      else none
  | .writerWake =>
      if 1 ≤ s.writes_waiting ∧ s.rwlock = 0 then
        some { s with rwlock := -1, writes_waiting := s.writes_waiting - 1,
                      writing := s.writing + 1 }
      else none
  | .readRelease =>
      if 1 ≤ s.reading then
        some { s with
          rwlock := if s.rwlock < 0 then 0 else s.rwlock - 1,
          reading := s.reading - 1 }
      else none
  | .writeRelease =>
      if 1 ≤ s.writing then
        some { s with
          rwlock := if s.rwlock < 0 then 0 else s.rwlock - 1,
          writing := s.writing - 1 }
      else none

/-- Run a sequence of monitor steps; `none` if any step is not enabled. -/
def lockRun (ls : List LockLabel) (s : LockState) : Option LockState :=
  match ls with
  | [] => some s
  | l :: rest => (lockStep l s).bind (lockRun rest)

/-- The inductive invariant tying the `rwlock` counter to the ghost
holder counts. -/
def LockInv (s : LockState) : Prop :=
  s.writing ≤ 1 ∧
  (s.writing = 1 → s.rwlock = -1 ∧ s.reading = 0) ∧
  (s.writing = 0 → s.rwlock = (s.reading : Int))

theorem lockInv_init : LockInv lockInit := by
  refine ⟨by decide, by decide, by decide⟩

theorem lockInv_step {l : LockLabel} {s s' : LockState}
    (hInv : LockInv s) (h : lockStep l s = some s') : LockInv s' := by
  obtain ⟨h1, h2, h3⟩ := hInv
  cases l <;> simp only [lockStep] at h <;> split at h <;>
    first
      | exact Option.noConfusion h
      | (injection h with h
         subst h
         unfold LockInv
         refine ⟨?_, ?_, ?_⟩ <;> dsimp only <;> omega)

theorem lockInv_run {ls : List LockLabel} {s s' : LockState}
    (hInv : LockInv s) (h : lockRun ls s = some s') : LockInv s' := by
  induction ls generalizing s with
  | nil =>
      simp only [lockRun, Option.some.injEq] at h
      subst h
      exact hInv
  | cons l rest ih =>
      simp only [lockRun] at h
      cases hstep : lockStep l s with
      | none => simp [hstep] at h
      | some s1 =>
          rw [hstep] at h
          exact ih (lockInv_step hInv hstep) h

/-- C1 -- In every state of the reader/writer lock reachable from the
initial state by any interleaving of `read_acquire`, `write_acquire` and
`release` steps, at most one thread holds the write lock, and no thread
holds the write lock while any thread holds a read lock. -/
theorem rwlock_writer_exclusion (ls : List LockLabel) (s : LockState)
    (h : lockRun ls lockInit = some s) :
    s.writing ≤ 1 ∧ ¬ (1 ≤ s.writing ∧ 1 ≤ s.reading) := by
  have hInv := lockInv_run lockInv_init h
  obtain ⟨h1, h2, _⟩ := hInv
  refine ⟨h1, ?_⟩
  rintro ⟨hw, hr⟩
  have := h2 (by omega)
  omega

/-- Witness for C1: a concrete run (a reader is admitted, a writer
arrives and blocks, the reader releases, the waiting writer is admitted)
reaches a state with one writer and no readers. -/
theorem rwlock_writer_exclusion_witness :
    lockRun [LockLabel.readAdmit, LockLabel.writeBlock, LockLabel.readRelease,
             LockLabel.writerWake] lockInit = some ⟨-1, 0, 0, 1⟩ ∧
    ((1 : Nat) ≤ 1 ∧ ¬ (1 ≤ (1 : Nat) ∧ 1 ≤ (0 : Nat))) :=
  ⟨by decide,
   rwlock_writer_exclusion
     [LockLabel.readAdmit, LockLabel.writeBlock, LockLabel.readRelease,
      LockLabel.writerWake] ⟨-1, 0, 0, 1⟩ (by decide)⟩

/-! ## Responses and commands (memkv protocol shapes, §3 of the schema)

A `Response` carries a status, a message and at most one payload variant;
an unset protobuf submessage field is `none`. -/

structure MetricsFlags where
  get_key_count : Bool
  get_total_store_contents_size : Bool
  get_keys_read_count : Bool
  get_keys_updated_count : Bool
  get_keys_deleted_count : Bool
deriving DecidableEq, Repr

structure MetricsResponse where
  key_count : Option Int := none
  total_store_contents_size : Option Int := none
  keys_read_count : Option Int := none
  keys_updated_count : Option Int := none
  keys_deleted_count : Option Int := none
deriving DecidableEq, Repr

structure Response where
  status : String
  message : String
  kv_list : Option (List (String × Bytes)) := none
  key_list : Option (List String) := none
  metrics : Option MetricsResponse := none
deriving DecidableEq, Repr

/-- The five wire message shapes (protocol/util.py `MessageT`). -/
inductive Msg where
  | getCmd (keys : List String)
  | setCmd (key_values : List (String × Bytes))
  | deleteCmd (keys : List String)
  | metricsCmd (flags : MetricsFlags)
  | response (r : Response)
deriving DecidableEq, Repr

/-! ## The server state and command executors (server.py lines 51-150) -/

structure ServerState where
  key_value_store : Store
  metrics : Metrics
deriving DecidableEq, Repr

/-- A freshly constructed `Server`: empty store, empty metrics map. -/
def serverInit : ServerState := ⟨[], []⟩

/-- The dict comprehension of `execute_get`:
`{key: store[key] for key in keys if key in store}`. -/
def getKeyValues (keys : List String) (st : Store) : List (String × Bytes) :=
  keys.foldl
    (fun acc key =>
      match assocLookup st key with
      | some v => assocSet acc key v
      | none => acc)
    []

/-- Embedding of `Server.execute_get` (lines 66-79): read the present keys under the
store's read lock, bump `keys_read_count` by the number of requested keys
(misses included), and answer OK with the found pairs as `kv_list`. -/
def execute_get (keys : List String) (s : ServerState) : Response × ServerState :=
  let key_values := getKeyValues keys s.key_value_store
  let metrics := metricsIncrement s.metrics KEYS_READ_COUNT_METRIC (keys.length : Int)
  ({ status := "OK", message := "OK", kv_list := some key_values },
   { s with metrics := metrics })

/-- Python's `reduce` without an initial value: raises `TypeError` on an
empty sequence (modelled as `none`), otherwise folds from the left. -/
def reduceAdd (l : List Nat) : Option Nat :=
  match l with
  | [] => none
  | x :: xs => some (xs.foldl (· + ·) x)

/-- Embedding of `Server.execute_set` (lines 81-95): deduplicate the batch into
`updates_dict`, sum the previous sizes of the touched keys (`reduce`
with no initial value — `none` models the `TypeError` it raises on an
empty batch), update the store, then bump `keys_updated_count` by the
number of distinct keys and `total_store_contents_size` by the size
delta; the response lists every key of the batch in input order. -/
def execute_set (key_values : List (String × Bytes)) (s : ServerState) :
    Option (Response × ServerState) :=
  let updates_dict := dictOfList key_values
  match reduceAdd (updates_dict.map
      (fun kv => ((assocLookup s.key_value_store kv.1).getD []).length)) with
  | none => none
  | some last_total_size =>
    let store := dictUpdate s.key_value_store updates_dict
    match reduceAdd (updates_dict.map (fun kv => kv.2.length)) with
    | none => none
    | some new_total_size =>
      let m1 := metricsIncrement s.metrics KEYS_UPDATED_COUNT_METRIC
        (updates_dict.length : Int)
      let m2 := metricsIncrement m1 TOTAL_STORE_CONTENTS_SIZE_METRIC
        ((new_total_size : Int) - (last_total_size : Int))
      some ({ status := "OK", message := "OK",
              key_list := some (key_values.map Prod.fst) },
            { key_value_store := store, metrics := m2 })

/-- The `for key in cmd.keys` loop of `execute_delete`: pop each key in
order, recording the keys actually removed (in removal order) and the
total size removed. -/
def deleteLoop (keys : List String) (st : Store) :
    Store × List String × Nat :=
  match keys with
  | [] => (st, [], 0)
  | key :: rest =>
      let r := assocPop st key
      match r.1 with
      | some v =>
          let tail := deleteLoop rest r.2
          (tail.1, key :: tail.2.1, v.length + tail.2.2)
      | none =>
          deleteLoop rest r.2

/-- Embedding of `Server.execute_delete` (lines 97-116): pop each requested key under
the write lock, then call `metrics.decrement` for `keys_deleted_count`
(by the number removed) and for `total_store_contents_size` (by the
bytes removed); the `key_list` payload is set only when nonempty. -/
def execute_delete (keys : List String) (s : ServerState) :
    Response × ServerState :=
  let r := deleteLoop keys s.key_value_store
  let keys_deleted := r.2.1
  let size_deleted := r.2.2
  let m1 := metricsDecrement s.metrics KEYS_DELETED_COUNT_METRIC
    (keys_deleted.length : Int)
  let m2 := metricsDecrement m1 TOTAL_STORE_CONTENTS_SIZE_METRIC
    (size_deleted : Int)
  ({ status := "OK", message := "OK",
     key_list := if 0 < keys_deleted.length then some keys_deleted else none },
   { key_value_store := r.1, metrics := m2 })

/-- Embedding of `Server.execute_metrics` (lines 118-150): populate only the requested
fields; a counter is reported only when it is present in the metrics map;
`key_count` is derived from the current store size. -/
def execute_metrics (flags : MetricsFlags) (s : ServerState) :
    Response × ServerState :=
  let key_count :=
    if flags.get_key_count then some (s.key_value_store.length : Int) else none
  let pick := fun (flag : Bool) (name : String) =>
    if flag ∧ (metricsGet s.metrics name).isSome then metricsGet s.metrics name
    else none
  let m : MetricsResponse :=
    { key_count := key_count,
      total_store_contents_size :=
        pick flags.get_total_store_contents_size TOTAL_STORE_CONTENTS_SIZE_METRIC,
      keys_read_count := pick flags.get_keys_read_count KEYS_READ_COUNT_METRIC,
      keys_updated_count :=
        pick flags.get_keys_updated_count KEYS_UPDATED_COUNT_METRIC,
      keys_deleted_count :=
        pick flags.get_keys_deleted_count KEYS_DELETED_COUNT_METRIC }
  ({ status := "OK", message := "OK", metrics := some m }, s)

/-! ## Wire codec (protocol/util.py lines 39-100)

The header is `struct.pack("!HI", type, size)`: a big-endian 2-byte
unsigned message type followed by a big-endian 4-byte unsigned payload
size, 6 bytes in all. -/

def HEADER_SIZE : Nat := 6

/-- Embedding of `MessageType(...)` tags (protocol/util.py lines 18-23). -/
def GET_COMMAND_TAG : Nat := 1
def SET_COMMAND_TAG : Nat := 2
def DELETE_COMMAND_TAG : Nat := 3
def METRICS_COMMAND_TAG : Nat := 4
def RESPONSE_TAG : Nat := 5

/-- Embedding of `get_type` (protocol/util.py lines 63-75): the tag of each message
shape. -/
def get_type (m : Msg) : Nat :=
  match m with
  | .getCmd _ => GET_COMMAND_TAG
  | .setCmd _ => SET_COMMAND_TAG
  | .deleteCmd _ => DELETE_COMMAND_TAG
  | .metricsCmd _ => METRICS_COMMAND_TAG
  | .response _ => RESPONSE_TAG

/-- Embedding of `struct.pack("!H", n)`: two big-endian bytes; `struct.error` (`none`)
if `n` does not fit. -/
def pack_u16_be (n : Nat) : Option Bytes :=
  if n < 2 ^ 16 then some [n / 2 ^ 8, n % 2 ^ 8] else none

/-- Embedding of `struct.pack("!I", n)`: four big-endian bytes; `struct.error`
(`none`) if `n` does not fit. -/
def pack_u32_be (n : Nat) : Option Bytes :=
  if n < 2 ^ 32 then
    some [n / 2 ^ 24, n / 2 ^ 16 % 2 ^ 8, n / 2 ^ 8 % 2 ^ 8, n % 2 ^ 8]
  else none

/-- Embedding of `encode_into_header_and_data_bytes` (lines 78-82).  The payload
`data` stands for `command.SerializeToString()`, produced by the
external protobuf codec. -/
def encode_into_header_and_data_bytes (command : Msg) (data : Bytes) :
    Option (Bytes × Bytes) :=
  (pack_u16_be (get_type command)).bind fun t =>
    (pack_u32_be data.length).map fun sz => (t ++ sz, data)

/-- The decoded header record (protocol/util.py lines 26-29). -/
structure MessageHeader where
  message_type : Nat
  message_size : Nat
deriving DecidableEq, Repr

/-- Embedding of `decode_header` (lines 85-87): `struct.unpack("!HI", b)` raises
(`none`) unless the input is exactly 6 bytes, and `MessageType(t)`
raises `ValueError` (`none`) unless the tag is one of 1..5. -/
def decode_header (encoded_header : Bytes) : Option MessageHeader :=
  match encoded_header with
  | [b0, b1, b2, b3, b4, b5] =>
      let t := b0 * 2 ^ 8 + b1
      let size := b2 * 2 ^ 24 + b3 * 2 ^ 16 + b4 * 2 ^ 8 + b5
      if 1 ≤ t ∧ t ≤ 5 then some ⟨t, size⟩ else none
  | _ => none

/-- A framed message as handed to the worker pool: the decoded header's
type tag together with the raw payload bytes. -/
structure MessageWrapper where
  message_type : Nat
  data : Bytes
deriving DecidableEq, Repr

/-- The payload parsers of the external protobuf schema codec
(`memkv_pb2.*.ParseFromString`); a parameter of the embedding, since the
generated schema module is outside this repository.  `.error text`
models `ParseFromString` raising an exception whose `str` is `text`. -/
structure Codec where
  parseGet : Bytes → Except String (List String)
  parseSet : Bytes → Except String (List (String × Bytes))
  parseDelete : Bytes → Except String (List String)
  parseMetrics : Bytes → Except String MetricsFlags
  parseResponse : Bytes → Except String Response

/-- Embedding of `construct_message` (lines 90-96): dispatch on the tag through
`MESSAGE_CONSTRUCTORS` and parse the payload; an unknown tag leaves
`message = None`.  A parse failure propagates as the raised exception. -/
def construct_message (c : Codec) (mw : MessageWrapper) :
    Except String (Option Msg) :=
  if mw.message_type = GET_COMMAND_TAG then
    (c.parseGet mw.data).map (fun keys => some (Msg.getCmd keys))
  else if mw.message_type = SET_COMMAND_TAG then
    (c.parseSet mw.data).map (fun kvs => some (Msg.setCmd kvs))
  else if mw.message_type = DELETE_COMMAND_TAG then
    (c.parseDelete mw.data).map (fun keys => some (Msg.deleteCmd keys))
  else if mw.message_type = METRICS_COMMAND_TAG then
    (c.parseMetrics mw.data).map (fun flags => some (Msg.metricsCmd flags))
  else if mw.message_type = RESPONSE_TAG then
    (c.parseResponse mw.data).map (fun r => some (Msg.response r))
  else
    .ok none

/-- Embedding of `str(e)` for the exception raised on a non-command message
(server.py lines 204-207); `msg.__class__.__name__` is `Response` for a
parsed response and `NoneType` when `construct_message` returned `None`. -/
def unexpectedTypeMessage (typeName : String) : String :=
  "Unexpected message type received " ++ typeName

/-- Embedding of `str(e)` for the `TypeError` raised by `reduce` on an empty sequence
in `execute_set`. -/
def emptyReduceMessage : String :=
  "reduce() of empty iterable with no initial value"

/-- Embedding of `Server.unwrap_message_and_execute` (lines 193-210): construct the
message, dispatch on its type, and convert any exception raised along
the way into an ERROR response carrying `str(e)`, leaving the server
state unchanged. -/
def unwrap_message_and_execute (c : Codec) (mw : MessageWrapper)
    (s : ServerState) : Response × ServerState :=
  match construct_message c mw with
  | .error text => ({ status := "ERROR", message := text }, s)
  | .ok msg =>
    match msg with
    | some (.getCmd keys) => execute_get keys s
    | some (.setCmd kvs) =>
        match execute_set kvs s with
        | some r => r
        | none => ({ status := "ERROR", message := emptyReduceMessage }, s)
    | some (.deleteCmd keys) => execute_delete keys s
    | some (.metricsCmd flags) => execute_metrics flags s
    | some (.response _) =>
        ({ status := "ERROR",
           message := unexpectedTypeMessage "Response" }, s)
    | none =>
        ({ status := "ERROR",
           message := unexpectedTypeMessage "NoneType" }, s)

/-! ## Sequential command executions against one server -/

/-- A mutating command for sequential-execution claims. -/
inductive ServerCmd where
  | setC (key_values : List (String × Bytes))
  | delC (keys : List String)
deriving DecidableEq, Repr

/-- Execute one command the way the worker does: an exception inside
`execute_*` is caught by `unwrap_message_and_execute`, which returns an
ERROR response and leaves the state untouched. -/
def runCmd (s : ServerState) (c : ServerCmd) : ServerState :=
  match c with
  | .setC kvs =>
      match execute_set kvs s with
      | some r => r.2
      | none => s
  | .delC keys => (execute_delete keys s).2

/-- Execute a sequence of commands in order. -/
def runCmds (cs : List ServerCmd) (s : ServerState) : ServerState :=
  cs.foldl runCmd s

/-- The sum of the byte lengths of all values currently in the store. -/
def storeTotal (st : Store) : Nat :=
  (st.map (fun kv => kv.2.length)).sum

/-! ## Backoff (protocol/util.py lines 113-121)

`random.randrange(0, bound)` raises `ValueError` on an empty range
(`bound ≤ 0`) and otherwise returns some integer in `[0, bound)`; the
draw is modelled by reducing an arbitrary random source modulo the
bound, so every value of the range is realised by some draw. -/

def backoff (draw : Nat) (attempts : Nat) (min_delay : Nat := 1)
    (cap : Nat := 5000) : Option Nat :=
  let bound := min cap (min_delay * 2 ^ attempts)
  if bound = 0 then none else some (draw % bound)

/-! ## Client socket lifecycle (client/api.py lines 25-69, 130-138)

`Client` keeps one socket in `self.sd`.  Sockets are identified by a
fresh counter so that "re-established" is observable.  Network faults in
`send`/`recv` are injected as explicit booleans. -/

structure ClientState where
  sd : Option Nat
  next_sock : Nat
deriving DecidableEq, Repr

/-- Embedding of `Client.connect` (lines 32-35): create and connect a socket only if
`self.sd is None`. -/
def clientConnect (s : ClientState) : ClientState :=
  match s.sd with
  | none => { sd := some s.next_sock, next_sock := s.next_sock + 1 }
  | some _ => s

/-- Embedding of `Client.close` (lines 130-138): close the socket if any and set
`self.sd = None`. -/
def clientClose (s : ClientState) : ClientState :=
  { s with sd := none }

/-- Embedding of `Client.send` (lines 37-41): on a socket error it raises
`RetryableException` — without closing the socket.  Returns
`(failed, state)`. -/
def clientSend (fault : Bool) (s : ClientState) : Bool × ClientState :=
  if fault then (true, s) else (false, s)

/-- Embedding of `Client.receive` (lines 43-54): on a socket error it calls
`self.close()` and then raises `RetryableException`. -/
def clientReceive (fault : Bool) (s : ClientState) : Bool × ClientState :=
  if fault then (true, clientClose s) else (false, s)

/-- One attempt of `Client.execute_command` (lines 63-69): connect, send
the header, send the payload, then receive the response (header and
payload reads both go through `Client.receive`).  The boolean is true
when the attempt ended in a `RetryableException`; the state records the
socket left behind for the next attempt. -/
def clientAttempt (sendHeaderFault sendDataFault receiveFault : Bool)
    (s : ClientState) : Bool × ClientState :=
  let s := clientConnect s
  let r1 := clientSend sendHeaderFault s
  if r1.1 then (true, r1.2)
  else
    let r2 := clientSend sendDataFault r1.2
    if r2.1 then (true, r2.2)
    else clientReceive receiveFault r2.2

/-! ## Association-list and metrics lemmas -/

theorem assocLookup_assocSet_self {α : Type} (l : List (String × α))
    (k : String) (v : α) : assocLookup (assocSet l k v) k = some v := by
  induction l with
  | nil => simp [assocSet, assocLookup]
  | cons hd tl ih =>
      obtain ⟨k0, v0⟩ := hd
      by_cases hk : k0 = k
      · simp [assocSet, hk, assocLookup]
      · simp [assocSet, hk, assocLookup, ih]

theorem assocLookup_assocSet_ne {α : Type} (l : List (String × α))
    (k k' : String) (v : α) (h : k ≠ k') :
    assocLookup (assocSet l k v) k' = assocLookup l k' := by
  induction l with
  | nil => simp [assocSet, assocLookup, h]
  | cons hd tl ih =>
      obtain ⟨k0, v0⟩ := hd
      by_cases hk : k0 = k
      · subst hk
        simp [assocSet, assocLookup, h]
      · simp [assocSet, hk, assocLookup, ih]

theorem metricsGet_increment_self (m : Metrics) (n : String) (d : Int) :
    metricsGet (metricsIncrement m n d) n = some (metricValD m n + d) := by
  unfold metricsIncrement metricValD metricsGet
  cases h : assocLookup m n with
  | none => simp [h, assocLookup_assocSet_self]
  | some old => simp [h, assocLookup_assocSet_self]

theorem metricsGet_increment_ne (m : Metrics) (n n' : String) (d : Int)
    (h : n ≠ n') :
    metricsGet (metricsIncrement m n d) n' = metricsGet m n' := by
  unfold metricsIncrement metricsGet
  cases hl : assocLookup m n <;> simp [assocLookup_assocSet_ne _ _ _ _ h]

theorem metricsGet_decrement_self (m : Metrics) (n : String) (d : Int) :
    metricsGet (metricsDecrement m n d) n =
      some (match metricsGet m n with
            | some old => old - d
            | none => d) := by
  unfold metricsDecrement metricsGet
  cases h : assocLookup m n with
  | none => simp [h, assocLookup_assocSet_self]
  | some old => simp [h, assocLookup_assocSet_self]

theorem metricsGet_decrement_ne (m : Metrics) (n n' : String) (d : Int)
    (h : n ≠ n') :
    metricsGet (metricsDecrement m n d) n' = metricsGet m n' := by
  unfold metricsDecrement metricsGet
  cases hl : assocLookup m n <;> simp [assocLookup_assocSet_ne _ _ _ _ h]

theorem metricValD_increment_self (m : Metrics) (n : String) (d : Int) :
    metricValD (metricsIncrement m n d) n = metricValD m n + d := by
  unfold metricValD
  rw [metricsGet_increment_self]
  rfl

theorem metricValD_increment_ne (m : Metrics) (n n' : String) (d : Int)
    (h : n ≠ n') :
    metricValD (metricsIncrement m n d) n' = metricValD m n' := by
  unfold metricValD
  rw [metricsGet_increment_ne _ _ _ _ h]

/-! ## C2: writer priority -/

/-- Checks that `writes_waiting` stays positive at every state from which a step of
the run is taken (computable, for concrete witnesses). -/
def wwPosAlong (ls : List LockLabel) (s : LockState) : Bool :=
  match ls with
  | [] => true
  | l :: rest =>
      decide (0 < s.writes_waiting) &&
        (match lockStep l s with
         | some s1 => wwPosAlong rest s1
         | none => true)

/-- C2 -- Along any run of the lock in which `writes_waiting` stays
positive (some writer is still pending at every step), no reader is
admitted: `read_acquire` never gets to increment the reader count, so
the run contains no `readAdmit` step. -/
theorem rwlock_writer_priority (ls : List LockLabel) (s s' : LockState)
    (hrun : lockRun ls s = some s') (hww : wwPosAlong ls s = true) :
    LockLabel.readAdmit ∉ ls := by
  induction ls generalizing s with
  | nil => simp
  | cons l rest ih =>
      simp only [lockRun] at hrun
      cases hstep : lockStep l s with
      | none =>
          rw [hstep] at hrun
          exact Option.noConfusion hrun
      | some s1 =>
          rw [hstep] at hrun
          simp only [wwPosAlong, hstep, Bool.and_eq_true, decide_eq_true_eq]
            at hww
          intro hmem
          rcases List.mem_cons.mp hmem with heq | hmem2
          · subst heq
            simp only [lockStep] at hstep
            split at hstep
            · rename_i hg
              omega
            · exact Option.noConfusion hstep
          · exact ih s1 hrun hww.2 hmem2

/-- Witness for C2: with one reader holding the lock and one writer
waiting, the reader can release (a step along which `writes_waiting`
stays positive), and that run admits no reader. -/
theorem rwlock_writer_priority_witness :
    lockRun [LockLabel.readRelease] ⟨1, 1, 1, 0⟩ = some ⟨0, 1, 0, 0⟩ ∧
    wwPosAlong [LockLabel.readRelease] ⟨1, 1, 1, 0⟩ = true ∧
    LockLabel.readAdmit ∉ [LockLabel.readRelease] :=
  ⟨by decide, by decide,
   rwlock_writer_priority [LockLabel.readRelease] ⟨1, 1, 1, 0⟩ ⟨0, 1, 0, 0⟩
     (by decide) (by decide)⟩

/-! ## C9: full-jitter backoff -/

/-- Counterexample to C9 as stated: at `attempts = 0`, `min_delay = 1`,
`cap = 0` the hypothesis `min_delay * 2 ^ attempts >= 1` holds, yet
`backoff` raises `ValueError` (an empty `randrange` range) instead of
returning an integer. -/
theorem backoff_cap_zero_counterexample :
    1 ≤ 1 * 2 ^ 0 ∧ backoff 0 0 1 0 = none := by decide

/-- C9 (amended) -- whenever the jitter bound `min(cap, min_delay * 2^a)`
is at least 1 (in particular `cap ≥ 1` besides `min_delay * 2^a ≥ 1`),
`backoff` returns an integer, and that integer lies in
`[0, min(cap, min_delay * 2^a))` for every random draw. -/
theorem backoff_in_range (draw attempts min_delay cap : Nat)
    (h : 1 ≤ min cap (min_delay * 2 ^ attempts)) :
    ∃ v, backoff draw attempts min_delay cap = some v ∧
      v < min cap (min_delay * 2 ^ attempts) := by
  unfold backoff
  have hb : ¬ (min cap (min_delay * 2 ^ attempts) = 0) := by omega
  simp only [hb, if_false]
  exact ⟨_, rfl, Nat.mod_lt _ (by omega)⟩

/-- Witness for C9 at `draw = 7`, `attempts = 3`, defaults
`min_delay = 1`, `cap = 5000`: the bound is `min 5000 8 = 8`. -/
theorem backoff_in_range_witness :
    1 ≤ min 5000 (1 * 2 ^ 3) ∧
    ∃ v, backoff 7 3 1 5000 = some v ∧ v < min 5000 (1 * 2 ^ 3) :=
  ⟨by decide, backoff_in_range 7 3 1 5000 (by decide)⟩

/-! ## C8: client socket lifecycle across retryable failures -/

/-- Counterexample to C8 as stated: a retryable network failure during
`send` (here: the header send, from a connected client with socket `0`)
leaves `self.sd` untouched — `Client.send` raises `RetryableException`
without calling `close()` — and the next attempt's `connect()` finds
`sd is not None` and reuses the same socket instead of re-establishing
one. -/
theorem client_send_failure_keeps_socket :
    (clientAttempt true false false ⟨some 0, 1⟩).1 = true ∧
    (clientAttempt true false false ⟨some 0, 1⟩).2.sd = some 0 ∧
    (clientConnect (clientAttempt true false false ⟨some 0, 1⟩).2).sd =
      some 0 := by decide

/-- C8 (amended) -- in the retry loop of `execute_command`, a retryable
failure during `receive` closes the socket (`sd = none`) and the next
attempt's `connect` re-establishes a fresh one; a retryable failure
during `send`, however, leaves the socket open and the next attempt
reuses it. -/
theorem client_retry_socket_lifecycle (s : ClientState) (i : Nat)
    (h : s.sd = some i) :
    ((clientAttempt false false true s).1 = true ∧
     (clientAttempt false false true s).2.sd = none ∧
     (clientConnect (clientAttempt false false true s).2).sd =
       some (clientAttempt false false true s).2.next_sock) ∧
    ((clientAttempt true false false s).1 = true ∧
     (clientAttempt true false false s).2.sd = some i ∧
     (clientConnect (clientAttempt true false false s).2).sd = some i) := by
  obtain ⟨sd, next⟩ := s
  simp only [ClientState.sd] at h
  subst h
  simp [clientAttempt, clientConnect, clientSend, clientReceive, clientClose]

/-- Witness for C8 (amended) at the concrete connected client
`{sd := some 3, next_sock := 4}`. -/
theorem client_retry_socket_lifecycle_witness :
    (ClientState.mk (some 3) 4).sd = some 3 ∧
    (((clientAttempt false false true ⟨some 3, 4⟩).1 = true ∧
      (clientAttempt false false true ⟨some 3, 4⟩).2.sd = none ∧
      (clientConnect (clientAttempt false false true ⟨some 3, 4⟩).2).sd =
        some (clientAttempt false false true ⟨some 3, 4⟩).2.next_sock) ∧
     ((clientAttempt true false false ⟨some 3, 4⟩).1 = true ∧
      (clientAttempt true false false ⟨some 3, 4⟩).2.sd = some 3 ∧
      (clientConnect (clientAttempt true false false ⟨some 3, 4⟩).2).sd =
        some 3)) :=
  ⟨rfl, client_retry_socket_lifecycle ⟨some 3, 4⟩ 3 rfl⟩

/-! ## C10: a RESPONSE message sent to the server -/

/-- C10 -- when the server receives a well-framed message whose tag is 5
(RESPONSE) and the schema codec parses its payload as a `Response`,
`unwrap_message_and_execute` returns a `Response` with status `ERROR`
whose message names the unexpected type, and leaves the store and the
metrics untouched (the exception is caught inside the worker, so the
connection loop keeps running). -/
theorem response_message_rejected (c : Codec) (mw : MessageWrapper)
    (s : ServerState) (r : Response)
    (htag : mw.message_type = RESPONSE_TAG)
    (hparse : c.parseResponse mw.data = .ok r) :
    unwrap_message_and_execute c mw s =
      ({ status := "ERROR",
         message := unexpectedTypeMessage "Response" }, s) := by
  unfold unwrap_message_and_execute construct_message
  rw [htag]
  simp only [RESPONSE_TAG, GET_COMMAND_TAG, SET_COMMAND_TAG,
    DELETE_COMMAND_TAG, METRICS_COMMAND_TAG]
  norm_num
  rw [hparse]
  rfl

/-- A concrete stand-in for the external schema codec, used to
instantiate codec-parameterised theorems. -/
def constCodec : Codec :=
  { parseGet := fun _ => .ok []
    parseSet := fun _ => .ok []
    parseDelete := fun _ => .ok []
    parseMetrics := fun _ => .ok ⟨false, false, false, false, false⟩
    parseResponse := fun _ => .ok { status := "OK", message := "OK" } }

/-- Witness for C10: a concrete tag-5 wrapper against the concrete codec
and the fresh server state. -/
theorem response_message_rejected_witness :
    (MessageWrapper.mk RESPONSE_TAG []).message_type = RESPONSE_TAG ∧
    constCodec.parseResponse [] = .ok { status := "OK", message := "OK" } ∧
    unwrap_message_and_execute constCodec ⟨RESPONSE_TAG, []⟩ serverInit =
      ({ status := "ERROR",
         message := unexpectedTypeMessage "Response" }, serverInit) :=
  ⟨rfl, rfl,
   response_message_rejected constCodec ⟨RESPONSE_TAG, []⟩ serverInit
     { status := "OK", message := "OK" } rfl rfl⟩

/-! ## C6: empty batches -/

/-- C6 (code evaluated at the failing input) -- an empty GET batch and an
empty DELETE batch produce OK responses with empty payloads, but an
empty SET batch makes `execute_set` raise (`reduce` of an empty
sequence), which `unwrap_message_and_execute` converts into an ERROR
response — not the OK response the claim requires.  The server state is
unchanged in all three cases. -/
theorem empty_set_batch_errors :
    unwrap_message_and_execute constCodec ⟨SET_COMMAND_TAG, []⟩ serverInit =
      ({ status := "ERROR", message := emptyReduceMessage }, serverInit) ∧
    ((execute_get [] serverInit).1.status = "OK" ∧
     (execute_get [] serverInit).1.kv_list = some [] ∧
     (execute_get [] serverInit).1.key_list = none) ∧
    ((execute_delete [] serverInit).1.status = "OK" ∧
     (execute_delete [] serverInit).1.kv_list = none ∧
     (execute_delete [] serverInit).1.key_list = none) := by decide

/-! ## C7: header round-trip -/

/-- C7 -- for every message shape `m` and serialized payload `data`
(produced by the external schema codec) that fits the 4-byte size field,
encoding yields a 6-byte header, and decoding that header returns
exactly the message's type tag and the byte length of the payload. -/
theorem header_roundtrip (m : Msg) (data : Bytes)
    (h : data.length < 2 ^ 32) :
    ∃ header,
      encode_into_header_and_data_bytes m data = some (header, data) ∧
      header.length = HEADER_SIZE ∧
      decode_header header = some ⟨get_type m, data.length⟩ := by
  have ht : 1 ≤ get_type m ∧ get_type m ≤ 5 := by
    cases m <;> simp [get_type, GET_COMMAND_TAG, SET_COMMAND_TAG,
      DELETE_COMMAND_TAG, METRICS_COMMAND_TAG, RESPONSE_TAG]
  have ht16 : get_type m < 2 ^ 16 := by omega
  refine ⟨[get_type m / 2 ^ 8, get_type m % 2 ^ 8,
           data.length / 2 ^ 24, data.length / 2 ^ 16 % 2 ^ 8,
           data.length / 2 ^ 8 % 2 ^ 8, data.length % 2 ^ 8], ?_, ?_, ?_⟩
  · unfold encode_into_header_and_data_bytes pack_u16_be pack_u32_be
    have ht16n : get_type m < 65536 := by omega
    have hn : data.length < 4294967296 := by omega
    simp [ht16n, hn]
  · rfl
  · unfold decode_header
    have h1 : get_type m / 2 ^ 8 * 2 ^ 8 + get_type m % 2 ^ 8 = get_type m := by
      omega
    have h2 : data.length / 2 ^ 24 * 2 ^ 24 +
        data.length / 2 ^ 16 % 2 ^ 8 * 2 ^ 16 +
        data.length / 2 ^ 8 % 2 ^ 8 * 2 ^ 8 + data.length % 2 ^ 8 =
        data.length := by omega
    simp only [h1, h2]
    simp [ht]

/-- Witness for C7: a concrete SET command with a 3-byte payload. -/
theorem header_roundtrip_witness :
    ([(7 : Nat), 8, 9] : Bytes).length < 2 ^ 32 ∧
    ∃ header,
      encode_into_header_and_data_bytes (Msg.setCmd [("k", [0])]) [7, 8, 9] =
        some (header, [7, 8, 9]) ∧
      header.length = HEADER_SIZE ∧
      decode_header header =
        some ⟨get_type (Msg.setCmd [("k", [0])]), ([(7 : Nat), 8, 9] : Bytes).length⟩ :=
  ⟨by decide, header_roundtrip (Msg.setCmd [("k", [0])]) [7, 8, 9] (by decide)⟩

/-! ## Store lemmas -/

theorem storeTotal_nil : storeTotal [] = 0 := rfl

theorem storeTotal_cons (k : String) (v : Bytes) (tl : Store) :
    storeTotal ((k, v) :: tl) = v.length + storeTotal tl := by
  simp [storeTotal]

theorem assocPop_fst {α : Type} (l : List (String × α)) (k : String) :
    (assocPop l k).1 = assocLookup l k := by
  induction l with
  | nil => rfl
  | cons hd tl ih =>
      obtain ⟨k0, v0⟩ := hd
      by_cases hk : k0 = k <;> simp [assocPop, assocLookup, hk, ih]

theorem assocLookup_eq_none_of_not_mem {α : Type} (l : List (String × α))
    (k : String) (h : k ∉ l.map Prod.fst) : assocLookup l k = none := by
  induction l with
  | nil => rfl
  | cons hd tl ih =>
      obtain ⟨k0, v0⟩ := hd
      simp only [List.map_cons, List.mem_cons] at h
      push_neg at h
      simp only [assocLookup]
      rw [if_neg (fun hh => h.1 hh.symm)]
      exact ih h.2

theorem assocLookup_assocPop_self {α : Type} (l : List (String × α))
    (k : String) (hnd : (l.map Prod.fst).Nodup) :
    assocLookup (assocPop l k).2 k = none := by
  induction l with
  | nil => rfl
  | cons hd tl ih =>
      obtain ⟨k0, v0⟩ := hd
      simp only [List.map_cons, List.nodup_cons] at hnd
      by_cases hk : k0 = k
      · subst hk
        simp only [assocPop, if_pos rfl]
        exact assocLookup_eq_none_of_not_mem tl k0 hnd.1
      · simp [assocPop, hk, assocLookup, ih hnd.2]

theorem assocPop_storeTotal (st : Store) (k : String) :
    storeTotal st =
      storeTotal (assocPop st k).2 + ((assocPop st k).1.getD []).length := by
  induction st with
  | nil => simp [assocPop, storeTotal]
  | cons hd tl ih =>
      obtain ⟨k0, v0⟩ := hd
      by_cases hk : k0 = k
      · simp [assocPop, hk, storeTotal_cons]
        omega
      · simp only [assocPop, if_neg hk, storeTotal_cons]
        omega

theorem storeTotal_assocSet (st : Store) (k : String) (v : Bytes) :
    (storeTotal (assocSet st k v) : Int) =
      (storeTotal st : Int) + (v.length : Int) -
        (((assocLookup st k).getD []).length : Int) := by
  induction st with
  | nil => simp [assocSet, assocLookup, storeTotal_cons, storeTotal_nil]
  | cons hd tl ih =>
      obtain ⟨k0, v0⟩ := hd
      by_cases hk : k0 = k
      · simp [assocSet, hk, assocLookup, storeTotal_cons]
        ring
      · simp only [assocSet, if_neg hk, assocLookup, storeTotal_cons]
        push_cast
        push_cast at ih
        omega

theorem mem_keys_assocSet {α : Type} (l : List (String × α)) (k k' : String)
    (v : α) :
    k' ∈ (assocSet l k v).map Prod.fst ↔ k' ∈ l.map Prod.fst ∨ k' = k := by
  induction l with
  | nil => simp [assocSet]
  | cons hd tl ih =>
      obtain ⟨k0, v0⟩ := hd
      by_cases hk : k0 = k
      · simp only [assocSet, if_pos hk, List.map_cons, List.mem_cons]
        subst hk
        tauto
      · simp only [assocSet, if_neg hk, List.map_cons, List.mem_cons, ih]
        tauto

theorem nodup_keys_assocSet {α : Type} (l : List (String × α)) (k : String)
    (v : α) (h : (l.map Prod.fst).Nodup) :
    ((assocSet l k v).map Prod.fst).Nodup := by
  induction l with
  | nil => simp [assocSet]
  | cons hd tl ih =>
      obtain ⟨k0, v0⟩ := hd
      simp only [List.map_cons, List.nodup_cons] at h
      by_cases hk : k0 = k
      · simp only [assocSet, if_pos hk, List.map_cons, List.nodup_cons]
        exact ⟨h.1, h.2⟩
      · simp only [assocSet, if_neg hk, List.map_cons, List.nodup_cons]
        refine ⟨?_, ih h.2⟩
        rw [mem_keys_assocSet]
        push_neg
        exact ⟨h.1, hk⟩

theorem nodup_keys_dictOfList {α : Type} (l : List (String × α)) :
    ((dictOfList l).map Prod.fst).Nodup := by
  have h : ∀ (acc : List (String × α)), (acc.map Prod.fst).Nodup →
      ((l.foldl (fun acc kv => assocSet acc kv.1 kv.2) acc).map
        Prod.fst).Nodup := by
    induction l with
    | nil => intro acc hacc; simpa using hacc
    | cons hd tl ih =>
        intro acc hacc
        exact ih _ (nodup_keys_assocSet acc hd.1 hd.2 hacc)
  exact h [] (by simp)

theorem assocSet_ne_nil {α : Type} (l : List (String × α)) (k : String)
    (v : α) : assocSet l k v ≠ [] := by
  cases l with
  | nil => simp [assocSet]
  | cons hd tl =>
      obtain ⟨k0, v0⟩ := hd
      by_cases hk : k0 = k <;> simp [assocSet, hk]

theorem dictOfList_ne_nil {α : Type} (l : List (String × α)) (h : l ≠ []) :
    dictOfList l ≠ [] := by
  have hfold : ∀ (xs : List (String × α)) (acc : List (String × α)),
      acc ≠ [] →
      xs.foldl (fun acc kv => assocSet acc kv.1 kv.2) acc ≠ [] := by
    intro xs
    induction xs with
    | nil => intro acc hacc; simpa
    | cons hd tl ih =>
        intro acc hacc
        exact ih _ (assocSet_ne_nil acc hd.1 hd.2)
  cases l with
  | nil => exact absurd rfl h
  | cons hd tl =>
      unfold dictOfList
      simp only [List.foldl_cons]
      exact hfold tl _ (assocSet_ne_nil [] hd.1 hd.2)

theorem foldl_add_init (xs : List Nat) (a : Nat) :
    xs.foldl (· + ·) a = a + xs.sum := by
  induction xs generalizing a with
  | nil => simp
  | cons x tl ih =>
      simp only [List.foldl_cons, List.sum_cons, ih]
      omega

theorem reduceAdd_eq_sum (l : List Nat) (h : l ≠ []) :
    reduceAdd l = some l.sum := by
  cases l with
  | nil => exact absurd rfl h
  | cons x xs => simp [reduceAdd, foldl_add_init, List.sum_cons]

theorem storeTotal_dictUpdate (kvs : List (String × Bytes)) (st : Store)
    (hnd : (kvs.map Prod.fst).Nodup) :
    (storeTotal (dictUpdate st kvs) : Int) =
      (storeTotal st : Int) +
        (((kvs.map (fun kv => kv.2.length)).sum : Nat) : Int) -
        (((kvs.map (fun kv =>
            ((assocLookup st kv.1).getD []).length)).sum : Nat) : Int) := by
  induction kvs generalizing st with
  | nil => simp [dictUpdate]
  | cons hd tl ih =>
      obtain ⟨k, v⟩ := hd
      simp only [List.map_cons, List.nodup_cons] at hnd
      have hstep : dictUpdate st ((k, v) :: tl) =
          dictUpdate (assocSet st k v) tl := by
        simp [dictUpdate]
      rw [hstep, ih _ hnd.2]
      have hlk : tl.map (fun kv =>
          ((assocLookup (assocSet st k v) kv.1).getD []).length) =
          tl.map (fun kv => ((assocLookup st kv.1).getD []).length) := by
        apply List.map_congr_left
        intro x hx
        have hne : k ≠ x.1 := by
          intro hkx
          exact hnd.1 (hkx ▸ List.mem_map_of_mem Prod.fst hx)
        rw [assocLookup_assocSet_ne _ _ _ _ hne]
      rw [hlk, storeTotal_assocSet]
      simp only [List.map_cons, List.sum_cons]
      push_cast
      ring

theorem deleteLoop_storeTotal (keys : List String) (st : Store) :
    storeTotal st =
      storeTotal (deleteLoop keys st).1 + (deleteLoop keys st).2.2 := by
  induction keys generalizing st with
  | nil => simp [deleteLoop]
  | cons key rest ih =>
      have hp := assocPop_storeTotal st key
      cases hpop : (assocPop st key).1 with
      | some v =>
          simp only [deleteLoop, hpop]
          rw [hpop] at hp
          simp only [Option.getD_some] at hp
          have hih := ih (assocPop st key).2
          omega
      | none =>
          simp only [deleteLoop, hpop]
          rw [hpop] at hp
          simp only [Option.getD_none, List.length_nil, Nat.add_zero] at hp
          have hih := ih (assocPop st key).2
          omega

/-! ## C3: DELETE then GET, and the keys_deleted_count accounting -/

/-- Counterexample to C3 as stated: starting from a fresh server, run
`SET {a: [0], b: [0,0]}` then `DELETE [a]` — this reaches a state where
key `b` is present and `keys_deleted_count = 1` (the first DELETE
initialises the absent counter to `+1`).  Executing `DELETE [b]` on that
state leaves `keys_deleted_count = 0`: `execute_delete` calls
`metrics.decrement`, so the counter is decreased by 1, not increased by
1 (which would give 2). -/
theorem delete_metric_counterexample :
    assocLookup (runCmds [ServerCmd.setC [("a", [0]), ("b", [0, 0])],
        ServerCmd.delC ["a"]] serverInit).key_value_store "b" =
      some [0, 0] ∧
    metricsGet (runCmds [ServerCmd.setC [("a", [0]), ("b", [0, 0])],
        ServerCmd.delC ["a"]] serverInit).metrics
        KEYS_DELETED_COUNT_METRIC = some 1 ∧
    metricsGet (runCmds [ServerCmd.setC [("a", [0]), ("b", [0, 0])],
        ServerCmd.delC ["a"], ServerCmd.delC ["b"]] serverInit).metrics
        KEYS_DELETED_COUNT_METRIC = some 0 ∧
    ¬ ((0 : Int) = 1 + 1) := by decide

/-- C3 (amended) -- for every key `k` present in the store (whose keys
are unique, as in a Python dict), `DELETE([k])` followed by `GET([k])`
yields an empty kv result, and the DELETE sets `keys_deleted_count` to
its previous value minus 1 when the counter exists, initialising it to 1
when absent (so it increases by 1 only on the first key-removing
DELETE); the GET leaves that counter unchanged. -/
theorem delete_then_get (s : ServerState) (k : String) (v : Bytes)
    (hnd : (s.key_value_store.map Prod.fst).Nodup)
    (hk : assocLookup s.key_value_store k = some v) :
    (execute_get [k] (execute_delete [k] s).2).1.kv_list = some [] ∧
    metricsGet (execute_delete [k] s).2.metrics KEYS_DELETED_COUNT_METRIC =
      some (match metricsGet s.metrics KEYS_DELETED_COUNT_METRIC with
            | some old => old - 1
            | none => 1) ∧
    metricsGet (execute_get [k] (execute_delete [k] s).2).2.metrics
        KEYS_DELETED_COUNT_METRIC =
      metricsGet (execute_delete [k] s).2.metrics
        KEYS_DELETED_COUNT_METRIC := by
  have hpop1 : (assocPop s.key_value_store k).1 = some v := by
    rw [assocPop_fst]
    exact hk
  have hdl : deleteLoop [k] s.key_value_store =
      ((assocPop s.key_value_store k).2, [k], v.length) := by
    simp [deleteLoop, hpop1]
  have hdel : execute_delete [k] s =
      ({ status := "OK", message := "OK", key_list := some [k] },
       { key_value_store := (assocPop s.key_value_store k).2,
         metrics := metricsDecrement
           (metricsDecrement s.metrics KEYS_DELETED_COUNT_METRIC 1)
           TOTAL_STORE_CONTENTS_SIZE_METRIC (v.length : Int) }) := by
    simp [execute_delete, hdl]
  have hlook : assocLookup (assocPop s.key_value_store k).2 k = none :=
    assocLookup_assocPop_self _ _ hnd
  refine ⟨?_, ?_, ?_⟩
  · rw [hdel]
    simp [execute_get, getKeyValues, hlook]
  · rw [hdel]
    dsimp only
    rw [metricsGet_decrement_ne _ _ _ _ (by decide),
      metricsGet_decrement_self]
  · rw [hdel]
    dsimp only
    simp only [execute_get]
    rw [metricsGet_increment_ne _ _ _ _ (by decide)]

/-- Witness for C3 (amended): the one-key store `{a: [7]}` with empty
metrics; after `DELETE [a]` the GET result is empty and the counter is
initialised to 1. -/
theorem delete_then_get_witness :
    ((([("a", [7])] : Store).map Prod.fst).Nodup ∧
     assocLookup ([("a", [7])] : Store) "a" = some [7]) ∧
    ((execute_get ["a"] (execute_delete ["a"] ⟨[("a", [7])], []⟩).2).1.kv_list
        = some [] ∧
     metricsGet (execute_delete ["a"] ⟨[("a", [7])], []⟩).2.metrics
         KEYS_DELETED_COUNT_METRIC =
       some (match metricsGet ([] : Metrics) KEYS_DELETED_COUNT_METRIC with
             | some old => old - 1
             | none => 1) ∧
     metricsGet (execute_get ["a"]
         (execute_delete ["a"] ⟨[("a", [7])], []⟩).2).2.metrics
         KEYS_DELETED_COUNT_METRIC =
       metricsGet (execute_delete ["a"] ⟨[("a", [7])], []⟩).2.metrics
         KEYS_DELETED_COUNT_METRIC) :=
  ⟨⟨by decide, by decide⟩,
   delete_then_get ⟨[("a", [7])], []⟩ "a" [7] (by decide) (by decide)⟩

/-! ## C5: SET metric accounting and key_list -/

/-- Counterexample to C5 as stated: the SET batch
`[("a", [0]), ("a", [1])]` has two (key, value) pairs, but `execute_set`
deduplicates it into `updates_dict` of size 1 and increments
`keys_updated_count` by 1 (from 0), not by the batch size 2. -/
theorem set_duplicate_keys_counterexample :
    (execute_set [("a", [0]), ("a", [1])] serverInit).map
        (fun r => metricValD r.2.metrics KEYS_UPDATED_COUNT_METRIC) =
      some 1 ∧
    metricValD serverInit.metrics KEYS_UPDATED_COUNT_METRIC = 0 ∧
    ¬ ((1 : Int) = 0 + 2) := by decide

/-- C5 (amended) -- every SET command with a nonempty batch succeeds,
increases `keys_updated_count` by the number of distinct keys in the
batch (duplicate keys collapse into `updates_dict`), and returns a
response whose `key_list` contains every key of the batch in input
order.  (An empty batch raises instead — see the empty-batch claim.) -/
theorem set_metric_and_key_list (kvs : List (String × Bytes))
    (s : ServerState) (h : kvs ≠ []) :
    ∃ resp s1, execute_set kvs s = some (resp, s1) ∧
      resp.status = "OK" ∧
      resp.key_list = some (kvs.map Prod.fst) ∧
      metricValD s1.metrics KEYS_UPDATED_COUNT_METRIC =
        metricValD s.metrics KEYS_UPDATED_COUNT_METRIC +
          ((dictOfList kvs).length : Int) := by
  have hne : dictOfList kvs ≠ [] := dictOfList_ne_nil kvs h
  have h1 : (dictOfList kvs).map
      (fun kv => ((assocLookup s.key_value_store kv.1).getD []).length) ≠
      [] := by
    simpa using hne
  have h2 : (dictOfList kvs).map (fun kv => kv.2.length) ≠ [] := by
    simpa using hne
  simp only [execute_set, reduceAdd_eq_sum _ h1, reduceAdd_eq_sum _ h2]
  refine ⟨_, _, rfl, rfl, rfl, ?_⟩
  rw [metricValD_increment_ne _ _ _ _ (by decide),
    metricValD_increment_self]

/-- Witness for C5 (amended) at the concrete batch
`[("a", [1, 2]), ("b", [3])]` against a fresh server. -/
theorem set_metric_and_key_list_witness :
    ([(("a" : String), ([1, 2] : Bytes)), ("b", [3])] ≠ []) ∧
    (∃ resp s1,
      execute_set [("a", [1, 2]), ("b", [3])] serverInit = some (resp, s1) ∧
      resp.status = "OK" ∧
      resp.key_list = some ([("a", ([1, 2] : Bytes)), ("b", [3])].map Prod.fst) ∧
      metricValD s1.metrics KEYS_UPDATED_COUNT_METRIC =
        metricValD serverInit.metrics KEYS_UPDATED_COUNT_METRIC +
          ((dictOfList [("a", ([1, 2] : Bytes)), ("b", [3])]).length : Int)) :=
  ⟨by decide,
   set_metric_and_key_list [("a", [1, 2]), ("b", [3])] serverInit
     (by decide)⟩

/-! ## C4: total_store_contents_size accounting -/

theorem execute_set_none (kvs : List (String × Bytes)) (s : ServerState)
    (h : dictOfList kvs = []) : execute_set kvs s = none := by
  simp [execute_set, h, reduceAdd]

theorem execute_set_state (kvs : List (String × Bytes)) (s : ServerState)
    (h : dictOfList kvs ≠ []) :
    ∃ resp, execute_set kvs s = some (resp,
      { key_value_store := dictUpdate s.key_value_store (dictOfList kvs),
        metrics := metricsIncrement
          (metricsIncrement s.metrics KEYS_UPDATED_COUNT_METRIC
            ((dictOfList kvs).length : Int))
          TOTAL_STORE_CONTENTS_SIZE_METRIC
          (((((dictOfList kvs).map (fun kv => kv.2.length)).sum : Nat) : Int) -
           ((((dictOfList kvs).map (fun kv =>
               ((assocLookup s.key_value_store kv.1).getD []).length)).sum :
             Nat) : Int)) }) := by
  have h1 : (dictOfList kvs).map
      (fun kv => ((assocLookup s.key_value_store kv.1).getD []).length) ≠
      [] := by
    simpa using h
  have h2 : (dictOfList kvs).map (fun kv => kv.2.length) ≠ [] := by
    simpa using h
  simp only [execute_set, reduceAdd_eq_sum _ h1, reduceAdd_eq_sum _ h2]
  exact ⟨_, rfl⟩

/-- The size invariant is preserved by one SET or DELETE execution (an
execution that raises leaves the state unchanged, so failed commands
preserve it trivially). -/
theorem totalInv_runCmd (s : ServerState) (c : ServerCmd)
    (h : metricValD s.metrics TOTAL_STORE_CONTENTS_SIZE_METRIC =
      (storeTotal s.key_value_store : Int)) :
    metricValD (runCmd s c).metrics TOTAL_STORE_CONTENTS_SIZE_METRIC =
      (storeTotal (runCmd s c).key_value_store : Int) := by
  cases c with
  | setC kvs =>
      by_cases hkv : dictOfList kvs = []
      · simp [runCmd, execute_set_none kvs s hkv, h]
      · obtain ⟨resp, heq⟩ := execute_set_state kvs s hkv
        simp only [runCmd, heq]
        rw [metricValD_increment_self,
          metricValD_increment_ne _ _ _ _ (by decide), h,
          storeTotal_dictUpdate _ _ (nodup_keys_dictOfList kvs)]
        ring
  | delC keys =>
      simp only [runCmd, execute_delete]
      have htot := deleteLoop_storeTotal keys s.key_value_store
      unfold metricValD
      rw [metricsGet_decrement_self,
        metricsGet_decrement_ne _ _ _ _ (by decide)]
      cases hm : metricsGet s.metrics TOTAL_STORE_CONTENTS_SIZE_METRIC with
      | some old =>
          unfold metricValD at h
          rw [hm] at h
          simp only [Option.getD_some] at h ⊢
          rw [h, htot]
          push_cast
          ring
      | none =>
          unfold metricValD at h
          rw [hm] at h
          simp only [Option.getD_none] at h
          simp only [Option.getD_some]
          omega

theorem totalInv_runCmds (cs : List ServerCmd) (s : ServerState)
    (h : metricValD s.metrics TOTAL_STORE_CONTENTS_SIZE_METRIC =
      (storeTotal s.key_value_store : Int)) :
    metricValD (runCmds cs s).metrics TOTAL_STORE_CONTENTS_SIZE_METRIC =
      (storeTotal (runCmds cs s).key_value_store : Int) := by
  induction cs generalizing s with
  | nil => simpa [runCmds] using h
  | cons c rest ih =>
      simp only [runCmds, List.foldl_cons]
      exact ih (runCmd s c) (totalInv_runCmd s c h)

/-- C4 -- after any sequence of SET and DELETE commands executed
sequentially from a fresh (empty) server — in particular, after any
sequence of successfully completed ones, since a failing command leaves
both the store and the metrics unchanged — the
`total_store_contents_size` counter (absent read as 0) equals the sum of
the byte lengths of all values currently in the store. -/
theorem total_size_accounting (cs : List ServerCmd) :
    metricValD (runCmds cs serverInit).metrics
        TOTAL_STORE_CONTENTS_SIZE_METRIC =
      (storeTotal (runCmds cs serverInit).key_value_store : Int) :=
  totalInv_runCmds cs serverInit (by decide)
